import Mathlib

/-!
# cilantro `Visualizer`: render priority and the renderable registry

A shallow embedding of `include/cilantro/visualizer.hpp`.

* Part 1 embeds `Visualizer::RenderPriorityComparator_` (lines 186-202): the
  comparison of two `std::tuple<bool, bool, float>` keys with `operator>`.
  The scalar type (`float` in the source) is a parameter `S` carrying exactly
  the operations the comparator uses; the instance for `ℚ` is exact
  arithmetic.
* Part 2 embeds the registry `renderables_` (a `std::map` from names to
  `ManagedRenderable` pairs) with `addObject` (lines 20-34) and `getObject`
  (lines 36-41).
-/

namespace cilantro

/-! ## Part 1: scalars, vectors and the render priority comparator -/

/-- The operations on the scalar type (`float`) that the comparator uses:
`+` and `*` (inside `rot_mat_*c + t_vec_` and `squaredNorm`), the literal
`1.0f`, `operator<` (inside the tuple comparison) and `operator==`. No law
is assumed, so an instance may also describe IEEE arithmetic with NaN. -/
class Scalar (S : Type) where
  add : S → S → S
  mul : S → S → S
  one : S
  lt : S → S → Bool
  eq : S → S → Bool

/-- Exact arithmetic: the rationals with their usual operations. -/
instance instScalarRat : Scalar ℚ where
  add := fun a b => a + b
  mul := fun a b => a * b
  one := 1
  lt := fun a b => decide (a < b)
  eq := fun a b => decide (a = b)

/-- `Eigen::Vector3f`: three coefficients. -/
structure Vector3 (S : Type) where
  x : S
  y : S
  z : S
deriving DecidableEq, Repr

/-- `Eigen::Matrix3f`: nine coefficients, `mij` is row `i`, column `j`. -/
structure Matrix3 (S : Type) where
  m00 : S
  m01 : S
  m02 : S
  m10 : S
  m11 : S
  m12 : S
  m20 : S
  m21 : S
  m22 : S
deriving DecidableEq, Repr

/-- Matrix-vector product `rot_mat_ * c`. -/
def Matrix3.mulVec {S : Type} [Scalar S] (R : Matrix3 S) (c : Vector3 S) : Vector3 S :=
  { x := Scalar.add (Scalar.add (Scalar.mul R.m00 c.x) (Scalar.mul R.m01 c.y)) (Scalar.mul R.m02 c.z)
    y := Scalar.add (Scalar.add (Scalar.mul R.m10 c.x) (Scalar.mul R.m11 c.y)) (Scalar.mul R.m12 c.z)
    z := Scalar.add (Scalar.add (Scalar.mul R.m20 c.x) (Scalar.mul R.m21 c.y)) (Scalar.mul R.m22 c.z) }

/-- Vector sum `u + v`. -/
def Vector3.add {S : Type} [Scalar S] (u v : Vector3 S) : Vector3 S :=
  { x := Scalar.add u.x v.x, y := Scalar.add u.y v.y, z := Scalar.add u.z v.z }

/-- `Eigen`'s `squaredNorm()`: the sum of the squares of the coefficients. -/
def Vector3.squaredNorm {S : Type} [Scalar S] (v : Vector3 S) : S :=
  Scalar.add (Scalar.add (Scalar.mul v.x v.x) (Scalar.mul v.y v.y)) (Scalar.mul v.z v.z)

/-- What the comparator reads from the object behind `o->first`:
`getDrawLast()`, `getRenderingProperties().opacity` and `getCentroid()`. -/
structure Renderable (S : Type) where
  drawLast : Bool
  opacity : S
  centroid : Vector3 S
deriving DecidableEq, Repr

/-- `operator<` on `bool`: `false < true` only. -/
def boolLt (a b : Bool) : Bool := !a && b

/-- `operator<` of `std::tuple<bool, bool, float>`: lexicographic, each level
decided with `<` of the element type only. -/
def tupleLt {S : Type} [Scalar S] (a b : Bool × Bool × S) : Bool :=
  if boolLt a.1 b.1 then true
  else if boolLt b.1 a.1 then false
  else if boolLt a.2.1 b.2.1 then true
  else if boolLt b.2.1 a.2.1 then false
  else Scalar.lt a.2.2 b.2.2

/-- `operator>` of `std::tuple`: `a > b` is `b < a`. -/
def tupleGt {S : Type} [Scalar S] (a b : Bool × Bool × S) : Bool :=
  tupleLt b a

/-- The distance key `(rot_mat_*(o->first->getCentroid())+t_vec_).squaredNorm()`. -/
def distKey {S : Type} [Scalar S] (R : Matrix3 S) (t : Vector3 S) (o : Renderable S) : S :=
  ((R.mulVec o.centroid).add t).squaredNorm

/-- The tuple built by `std::make_tuple` for one object (lines 195-197). -/
def renderKey {S : Type} [Scalar S] (R : Matrix3 S) (t : Vector3 S) (o : Renderable S) :
    Bool × Bool × S :=
  (!o.drawLast, Scalar.eq o.opacity Scalar.one, distKey R t o)

/-- `RenderPriorityComparator_(R, t)(o1, o2)` (lines 194-201): `true` means
that `o1` is drawn before `o2`. -/
def RenderPriorityComparator_ {S : Type} [Scalar S] (R : Matrix3 S) (t : Vector3 S)
    (o1 o2 : Renderable S) : Bool :=
  tupleGt (renderKey R t o1) (renderKey R t o2)

/-! ### Reference notions used to state the ordering properties -/

/-- Spec wording (§4.2): the composite key of an object, "not draw-last,
opacity == 1.0, squared distance from the camera of the centroid transformed
into camera space", in exact arithmetic. -/
def specKey (R : Matrix3 ℚ) (t : Vector3 ℚ) (o : Renderable ℚ) : Bool × Bool × ℚ :=
  let px := R.m00 * o.centroid.x + R.m01 * o.centroid.y + R.m02 * o.centroid.z + t.x
  let py := R.m10 * o.centroid.x + R.m11 * o.centroid.y + R.m12 * o.centroid.z + t.y
  let pz := R.m20 * o.centroid.x + R.m21 * o.centroid.y + R.m22 * o.centroid.z + t.z
  (!o.drawLast, decide (o.opacity = 1), px ^ 2 + py ^ 2 + pz ^ 2)

/-- Spec wording (§4.2): the three-level lexicographic compare in descending
order, `a` ranks before `b` when the first component in which they differ is
larger in `a`. -/
def lexDescending (a b : Bool × Bool × ℚ) : Prop :=
  b.1 < a.1 ∨ (a.1 = b.1 ∧ (b.2.1 < a.2.1 ∨ (a.2.1 = b.2.1 ∧ b.2.2 < a.2.2)))

instance instDecidableLexDescending (a b : Bool × Bool × ℚ) : Decidable (lexDescending a b) := by
  unfold lexDescending
  exact inferInstance

/-- Spec §8: `O1` (draw-last=false, opacity=1.0) with centroid `c`. -/
def O1 (c : Vector3 ℚ) : Renderable ℚ :=
  { drawLast := false, opacity := 1, centroid := c }

/-- Spec §8: `O2` (draw-last=false, opacity=0.5) with centroid `c`. -/
def O2 (c : Vector3 ℚ) : Renderable ℚ :=
  { drawLast := false, opacity := 1 / 2, centroid := c }

/-- Spec §8: `O3` (draw-last=true, opacity=1.0) with centroid `c`. -/
def O3 (c : Vector3 ℚ) : Renderable ℚ :=
  { drawLast := true, opacity := 1, centroid := c }

/-- The transpose of a 3x3 matrix. -/
def Matrix3.transpose (R : Matrix3 ℚ) : Matrix3 ℚ :=
  { m00 := R.m00, m01 := R.m10, m02 := R.m20
    m10 := R.m01, m11 := R.m11, m12 := R.m21
    m20 := R.m02, m21 := R.m12, m22 := R.m22 }

/-- The product of two 3x3 matrices. -/
def Matrix3.mul (A B : Matrix3 ℚ) : Matrix3 ℚ :=
  { m00 := A.m00 * B.m00 + A.m01 * B.m10 + A.m02 * B.m20
    m01 := A.m00 * B.m01 + A.m01 * B.m11 + A.m02 * B.m21
    m02 := A.m00 * B.m02 + A.m01 * B.m12 + A.m02 * B.m22
    m10 := A.m10 * B.m00 + A.m11 * B.m10 + A.m12 * B.m20
    m11 := A.m10 * B.m01 + A.m11 * B.m11 + A.m12 * B.m21
    m12 := A.m10 * B.m02 + A.m11 * B.m12 + A.m12 * B.m22
    m20 := A.m20 * B.m00 + A.m21 * B.m10 + A.m22 * B.m20
    m21 := A.m20 * B.m01 + A.m21 * B.m11 + A.m22 * B.m21
    m22 := A.m20 * B.m02 + A.m21 * B.m12 + A.m22 * B.m22 }

/-- The 3x3 identity matrix. -/
def Matrix3.identity : Matrix3 ℚ :=
  { m00 := 1, m01 := 0, m02 := 0
    m10 := 0, m11 := 1, m12 := 0
    m20 := 0, m21 := 0, m22 := 1 }

/-- Orthogonality of a rotation matrix: `Rᵀ R = I`. -/
def Matrix3.IsOrthogonal (R : Matrix3 ℚ) : Prop :=
  R.transpose.mul R = Matrix3.identity

instance instDecidableIsOrthogonal (R : Matrix3 ℚ) : Decidable R.IsOrthogonal := by
  unfold Matrix3.IsOrthogonal
  exact inferInstance

/-- The camera centre `-Rᵀ t` of the rigid transform `c ↦ R c + t`. -/
def cameraCentre (R : Matrix3 ℚ) (t : Vector3 ℚ) : Vector3 ℚ :=
  { x := -(R.m00 * t.x + R.m10 * t.y + R.m20 * t.z)
    y := -(R.m01 * t.x + R.m11 * t.y + R.m21 * t.z)
    z := -(R.m02 * t.x + R.m12 * t.y + R.m22 * t.z) }

/-- The squared Euclidean distance between two points. -/
def sqDist (a b : Vector3 ℚ) : ℚ :=
  (a.x - b.x) ^ 2 + (a.y - b.y) ^ 2 + (a.z - b.z) ^ 2

/-- A sequence is a possible result of sorting with the comparator `before`
when no later element ranks before an earlier one. -/
def SortedBy {α : Type} (before : α → α → Bool) (l : List α) : Prop :=
  l.Pairwise (fun a b => before b a = false)

instance instDecidableSortedBy {α : Type} (before : α → α → Bool) (l : List α) :
    Decidable (SortedBy before l) := by
  unfold SortedBy
  exact inferInstance

/-! ## Part 2: the registry `renderables_` -/

/-- A non-null pointer target: the identity of an object created by `new`
and the concrete class it was created with (its dynamic type). -/
structure ObjectRef (K : Type) where
  id : Nat
  kind : K
deriving DecidableEq, Repr

/-- `std::shared_ptr<...>`: `none` is the empty (null) pointer. -/
abbrev SharedPtr (K : Type) := Option (ObjectRef K)

/-- `ManagedRenderable` (line 180): the pair of a `shared_ptr<Renderable>`
and a `shared_ptr<GPUBufferObjects>`. The buffer bundle of class
`RenderableT::GPUBuffers` carries the tag `RenderableT`. -/
abbrev ManagedRenderable (K : Type) := SharedPtr K × SharedPtr K

/-- The template argument of `getObject`: the default `Renderable` (the
static type of the stored pointer) or a concrete class. -/
inductive Variant (K : Type) where
  | base : Variant K
  | derived : K → Variant K
deriving DecidableEq, Repr

/-- `std::dynamic_pointer_cast<RenderableT>` applied to a
`shared_ptr<Renderable>`. The class hierarchy lives in headers outside this
file, so "the dynamic class `k` is, or derives from, `k'`" is the parameter
`isA k k'`. The cast to `Renderable` itself is the identity. -/
def dynamic_pointer_cast {K : Type} (isA : K → K → Bool) (V : Variant K) (p : SharedPtr K) :
    SharedPtr K :=
  match p with
  | none => none
  | some r =>
    match V with
    | Variant.base => some r
    | Variant.derived k => if isA r.kind k then some r else none

/-- `std::map::find`: the entry whose key equals `name`, `none` for `end()`. -/
def mapFind {V : Type} : List (String × V) → String → Option (String × V)
  | [], _ => none
  | e :: rest, name => if e.1 = name then some e else mapFind rest name

/-- `m[name] = value` on a `std::map`: the value under an existing key is
replaced, a new key is inserted at its place in the key order. -/
def mapAssign {V : Type} : List (String × V) → String → V → List (String × V)
  | [], name, value => [(name, value)]
  | e :: rest, name, value =>
    if name = e.1 then (name, value) :: rest
    else if name < e.1 then (name, value) :: e :: rest
    else e :: mapAssign rest name value

/-- The keys of a map, in iteration order. -/
def mapKeys {V : Type} (m : List (String × V)) : List String :=
  m.map Prod.fst

/-- The representation invariant of `std::map`: the entries are in strictly
increasing key order (so every key occurs once). -/
def mapOrdered {V : Type} (m : List (String × V)) : Prop :=
  m.Pairwise (fun a b => a.1 < b.1)

instance instDecidableMapOrdered {V : Type} (m : List (String × V)) : Decidable (mapOrdered m) := by
  unfold mapOrdered
  exact inferInstance

/-- The state of a `Visualizer` that `addObject` and `getObject` touch: the
registry `renderables_` (line 182), whether the GL context has been made
current, and the number of buffer bundles created so far, which names the
next bundle that `new` creates. -/
structure Visualizer (K : Type) where
  renderables_ : List (String × ManagedRenderable K)
  contextCurrent : Bool
  created : Nat
deriving DecidableEq, Repr

/-- `addObject<RenderableT>(name, obj)` (lines 20-26). Line 22 makes the GL
context current; line 23 creates a new buffer bundle and assigns the pair to `renderables_[name]`; line 24 calls
`setRenderingProperties` through `mr.first`, which is undefined for a null
`obj` (result `none`) and otherwise writes into the new bundle only. -/
def addObject {K : Type} (v : Visualizer K) (T : K) (name : String) (obj : SharedPtr K) :
    Option (Visualizer K) :=
  let buffers : ObjectRef K := { id := v.created, kind := T }
  let renderables := mapAssign v.renderables_ name (obj, some buffers)
  match obj with
  | none => none
  | some _ =>
    some { renderables_ := renderables, contextCurrent := true, created := v.created + 1 }

/-- `addObject<RenderableT>(name, args...)` (lines 28-34): the same body as
the first overload, applied to the object that `new RenderableT(args...)`
creates; `fresh` is the identity of that object, whose class is exactly
`RenderableT`. -/
def addObjectNew {K : Type} (v : Visualizer K) (T : K) (name : String) (fresh : Nat) :
    Option (Visualizer K) :=
  addObject v T name (some { id := fresh, kind := T })

/-- `getObject<RenderableT>(name)` (lines 36-41): the result and the state
after the call (the member function is not `const`). -/
def getObject {K : Type} (isA : K → K → Bool) (v : Visualizer K) (V : Variant K)
    (name : String) : SharedPtr K × Visualizer K :=
  match mapFind v.renderables_ name with
  | none => (none, v)
  | some e => (dynamic_pointer_cast isA V e.2.1, v)

/-- One call of `addObject` with an object that exists: `adopt T obj` is the
first overload `addObject<T>(name, obj)` (lines 20-26), `construct T fresh`
the second overload `addObject<T>(name, args...)` (lines 28-34), where
`fresh` is the identity of the object that `new T(args...)` creates. -/
inductive AddCall (K : Type) where
  | adopt : K → ObjectRef K → AddCall K
  | construct : K → Nat → AddCall K
deriving DecidableEq, Repr

/-- The template argument `RenderableT` of a call. -/
def AddCall.kind {K : Type} : AddCall K → K
  | AddCall.adopt T _ => T
  | AddCall.construct T _ => T

/-- The object of a call: the one passed, or the one constructed. -/
def AddCall.object {K : Type} : AddCall K → ObjectRef K
  | AddCall.adopt _ obj => obj
  | AddCall.construct T fresh => { id := fresh, kind := T }

/-- Running one call: each constructor runs its own overload. -/
def AddCall.run {K : Type} (v : Visualizer K) (name : String) : AddCall K → Option (Visualizer K)
  | AddCall.adopt T obj => addObject v T name (some obj)
  | AddCall.construct T fresh => addObjectNew v T name fresh

/-- A sequence of `addObject` calls, of either overload, all with the same
name. -/
def addObjects {K : Type} (v : Visualizer K) (name : String) :
    List (AddCall K) → Option (Visualizer K)
  | [] => some v
  | c :: rest =>
    match c.run v name with
    | none => none
    | some v' => addObjects v' name rest

/-- The allocation invariant of the model: every buffer bundle held by the
registry was created earlier, so its identity is below the counter that
names the next bundle (`new` never returns an object that is still held). -/
def buffersFresh {K : Type} (v : Visualizer K) : Prop :=
  ∀ e ∈ v.renderables_, ∀ b ∈ e.2.2, b.id < v.created

instance instDecidableBuffersFresh {K : Type} (v : Visualizer K) : Decidable (buffersFresh v) := by
  unfold buffersFresh
  exact inferInstance

/-! ## Concrete inputs used by the examples below -/

/-- The identity rotation. -/
def exampleRotation : Matrix3 ℚ :=
  { m00 := 1, m01 := 0, m02 := 0, m10 := 0, m11 := 1, m12 := 0, m20 := 0, m21 := 0, m22 := 1 }

/-- A rotation by a quarter turn about the z axis. -/
def exampleQuarterTurn : Matrix3 ℚ :=
  { m00 := 0, m01 := -1, m02 := 0, m10 := 1, m11 := 0, m12 := 0, m20 := 0, m21 := 0, m22 := 1 }

/-- A camera translation. -/
def exampleTranslation : Vector3 ℚ := { x := 0, y := 0, z := 2 }

/-- An opaque object, not draw-last, centroid `(1, 0, 0)`. -/
def exampleOpaque : Renderable ℚ :=
  { drawLast := false, opacity := 1, centroid := { x := 1, y := 0, z := 0 } }

/-- An opaque object, not draw-last, centroid `(0, 1, 0)`. -/
def exampleOpaqueTwin : Renderable ℚ :=
  { drawLast := false, opacity := 1, centroid := { x := 0, y := 1, z := 0 } }

/-- An opaque object, not draw-last, centroid `(0, 0, 3)`. -/
def exampleOpaqueFar : Renderable ℚ :=
  { drawLast := false, opacity := 1, centroid := { x := 0, y := 0, z := 3 } }

/-- A translucent object, not draw-last, centroid `(0, 0, 5)`. -/
def exampleTranslucent : Renderable ℚ :=
  { drawLast := false, opacity := 1 / 2, centroid := { x := 0, y := 0, z := 5 } }

/-- An opaque draw-last object, centroid `(0, 0, 9)`. -/
def exampleDrawLast : Renderable ℚ :=
  { drawLast := true, opacity := 1, centroid := { x := 0, y := 0, z := 9 } }

/-- A registry with two entries, in key order. -/
def exampleVisualizer : Visualizer String :=
  { renderables_ :=
      [("axes", (some { id := 10, kind := "CoordinateFrame" },
                 some { id := 0, kind := "CoordinateFrame" })),
       ("cloud", (some { id := 11, kind := "PointCloud" },
                  some { id := 1, kind := "PointCloud" }))]
    contextCurrent := true
    created := 2 }

/-- Three calls: an object is constructed, another one is passed, a third
one is constructed. -/
def exampleCalls : List (AddCall String) :=
  [AddCall.construct "Mesh" 20,
   AddCall.adopt "PointCloud" { id := 21, kind := "PointCloud" },
   AddCall.construct "PointCloud" 22]

/-- A class hierarchy without inheritance between the concrete classes. -/
def exampleIsA (k k' : String) : Bool := k == k'

/-! ## Part 1, theorems: the render order -/

section ScalarRat

theorem Scalar.add_rat (a b : ℚ) : Scalar.add a b = a + b := rfl

theorem Scalar.mul_rat (a b : ℚ) : Scalar.mul a b = a * b := rfl

theorem Scalar.one_rat : (Scalar.one : ℚ) = 1 := rfl

theorem Scalar.lt_rat (a b : ℚ) : Scalar.lt a b = decide (a < b) := rfl

theorem Scalar.eq_rat (a b : ℚ) : Scalar.eq a b = decide (a = b) := rfl

end ScalarRat

/-- In exact arithmetic the distance key is the squared norm of `R c + t`
written out in coordinates. -/
theorem distKey_rat (R : Matrix3 ℚ) (t : Vector3 ℚ) (o : Renderable ℚ) :
    distKey R t o =
      (R.m00 * o.centroid.x + R.m01 * o.centroid.y + R.m02 * o.centroid.z + t.x) ^ 2
      + (R.m10 * o.centroid.x + R.m11 * o.centroid.y + R.m12 * o.centroid.z + t.y) ^ 2
      + (R.m20 * o.centroid.x + R.m21 * o.centroid.y + R.m22 * o.centroid.z + t.z) ^ 2 := by
  simp only [distKey, Vector3.squaredNorm, Vector3.add, Matrix3.mulVec, Scalar.add_rat,
    Scalar.mul_rat]
  ring

/-- In exact arithmetic the tuple built by the source is the key of the spec. -/
theorem renderKey_eq_specKey (R : Matrix3 ℚ) (t : Vector3 ℚ) (o : Renderable ℚ) :
    renderKey R t o = specKey R t o := by
  simp only [renderKey, specKey, distKey_rat, Scalar.eq_rat, Scalar.one_rat]

/-- The source's `operator>` on tuples is the descending lexicographic compare. -/
theorem tupleGt_iff_lexDescending (a b : Bool × Bool × ℚ) :
    tupleGt a b = true ↔ lexDescending a b := by
  obtain ⟨a1, a2, a3⟩ := a
  obtain ⟨b1, b2, b3⟩ := b
  cases a1 <;> cases b1 <;> cases a2 <;> cases b2 <;>
    simp [tupleGt, tupleLt, boolLt, lexDescending, Scalar.lt_rat, Bool.lt_iff]

/-- The comparator decided by the distance keys alone, when the two flags and
the two opacity classes agree (any scalar arithmetic). -/
theorem comparator_same_class {S : Type} [Scalar S] (R : Matrix3 S) (t : Vector3 S)
    (a b : Renderable S) (hflag : a.drawLast = b.drawLast)
    (hclass : Scalar.eq a.opacity Scalar.one = Scalar.eq b.opacity Scalar.one) :
    RenderPriorityComparator_ R t a b = Scalar.lt (distKey R t b) (distKey R t a) := by
  simp only [RenderPriorityComparator_, tupleGt, tupleLt, renderKey, boolLt, hflag, hclass]
  cases b.drawLast <;> cases Scalar.eq b.opacity Scalar.one <;> simp

/-- With equal flags, an object that compares equal to `1.0f` in opacity ranks
before one that does not, and never the other way round (any scalar
arithmetic). -/
theorem comparator_opaque_class {S : Type} [Scalar S] (R : Matrix3 S) (t : Vector3 S)
    (o1 o2 : Renderable S) (hflag : o1.drawLast = o2.drawLast)
    (h1 : Scalar.eq o1.opacity Scalar.one = true)
    (h2 : Scalar.eq o2.opacity Scalar.one = false) :
    RenderPriorityComparator_ R t o1 o2 = true ∧ RenderPriorityComparator_ R t o2 o1 = false := by
  simp only [RenderPriorityComparator_, tupleGt, tupleLt, renderKey, boolLt, hflag, h1, h2]
  cases o2.drawLast <;> simp

/-- C1: for every camera rotation and translation, an object that is not
flagged draw-last ranks before every object flagged draw-last, and never the
other way round, whatever the opacities and centroids are (and whatever the
scalar arithmetic is). -/
theorem drawLast_ranks_last {S : Type} [Scalar S] (R : Matrix3 S) (t : Vector3 S)
    (o1 o2 : Renderable S) (h1 : o1.drawLast = false) (h2 : o2.drawLast = true) :
    RenderPriorityComparator_ R t o1 o2 = true ∧ RenderPriorityComparator_ R t o2 o1 = false := by
  simp [RenderPriorityComparator_, tupleGt, tupleLt, renderKey, boolLt, h1, h2]

theorem drawLast_ranks_last_witness :
    exampleTranslucent.drawLast = false ∧ exampleDrawLast.drawLast = true ∧
    RenderPriorityComparator_ exampleQuarterTurn exampleTranslation
      exampleTranslucent exampleDrawLast = true ∧
    RenderPriorityComparator_ exampleQuarterTurn exampleTranslation
      exampleDrawLast exampleTranslucent = false :=
  ⟨rfl, rfl, drawLast_ranks_last exampleQuarterTurn exampleTranslation
    exampleTranslucent exampleDrawLast rfl rfl⟩

/-- C2: among two objects with the same draw-last flag, one whose opacity is
exactly 1 ranks before one whose opacity is below 1, and never the other way
round, whatever the centroids and the camera transform are. -/
theorem opaque_ranks_first (R : Matrix3 ℚ) (t : Vector3 ℚ) (o1 o2 : Renderable ℚ)
    (hflag : o1.drawLast = o2.drawLast) (h1 : o1.opacity = 1) (h2 : o2.opacity < 1) :
    RenderPriorityComparator_ R t o1 o2 = true ∧ RenderPriorityComparator_ R t o2 o1 = false := by
  have h2ne : o2.opacity ≠ 1 := ne_of_lt h2
  apply comparator_opaque_class R t o1 o2 hflag
  · simp only [Scalar.eq_rat, Scalar.one_rat, h1, decide_True]
  · simp only [Scalar.eq_rat, Scalar.one_rat, h2ne, decide_False]

theorem opaque_ranks_first_witness :
    exampleOpaque.drawLast = exampleTranslucent.drawLast ∧ exampleOpaque.opacity = 1 ∧
    exampleTranslucent.opacity < 1 ∧
    RenderPriorityComparator_ exampleQuarterTurn exampleTranslation
      exampleOpaque exampleTranslucent = true ∧
    RenderPriorityComparator_ exampleQuarterTurn exampleTranslation
      exampleTranslucent exampleOpaque = false :=
  ⟨rfl, rfl, by norm_num [exampleTranslucent],
    opaque_ranks_first exampleQuarterTurn exampleTranslation exampleOpaque exampleTranslucent
      rfl rfl (by norm_num [exampleTranslucent])⟩

/-- C3, as stated, fails: two opaque objects with equal flags whose distance
keys are equal (both 5) satisfy `dist(A) ≥ dist(B)`, yet the comparator does
not place `A` before `B`. -/
theorem farther_or_equal_not_before :
    exampleOpaque.drawLast = exampleOpaqueTwin.drawLast ∧
    (exampleOpaque.opacity = 1 ↔ exampleOpaqueTwin.opacity = 1) ∧
    distKey exampleRotation exampleTranslation exampleOpaque
      ≥ distKey exampleRotation exampleTranslation exampleOpaqueTwin ∧
    ¬ (RenderPriorityComparator_ exampleRotation exampleTranslation
        exampleOpaque exampleOpaqueTwin = true ↔
      distKey exampleRotation exampleTranslation exampleOpaque
        ≥ distKey exampleRotation exampleTranslation exampleOpaqueTwin) := by
  have hA : distKey exampleRotation exampleTranslation exampleOpaque = 5 := by
    rw [distKey_rat]; norm_num [exampleRotation, exampleTranslation, exampleOpaque]
  have hB : distKey exampleRotation exampleTranslation exampleOpaqueTwin = 5 := by
    rw [distKey_rat]; norm_num [exampleRotation, exampleTranslation, exampleOpaqueTwin]
  have hcmp : RenderPriorityComparator_ exampleRotation exampleTranslation
      exampleOpaque exampleOpaqueTwin = false := by
    rw [comparator_same_class exampleRotation exampleTranslation exampleOpaque
      exampleOpaqueTwin rfl rfl, hA, hB, Scalar.lt_rat]
    simp
  refine ⟨rfl, ⟨fun _ => rfl, fun _ => rfl⟩, ?_, ?_⟩
  · rw [hA, hB]
  · rw [hcmp, hA, hB]
    simp

/-- C3, amended: for every camera rotation and translation and every pair of
objects with equal draw-last flag and equal opaque class, the comparator
places `A` before `B` if and only if `dist(A) > dist(B)`, strictly, where
`dist(X)` is the squared norm of `R * centroid(X) + t` as the code computes
it and `>` is the comparison of the scalar type: the statement holds for
every scalar arithmetic, rounding or exact. -/
theorem farther_ranks_first {S : Type} [Scalar S] (R : Matrix3 S) (t : Vector3 S)
    (A B : Renderable S) (hflag : A.drawLast = B.drawLast)
    (hclass : Scalar.eq A.opacity Scalar.one = Scalar.eq B.opacity Scalar.one) :
    RenderPriorityComparator_ R t A B = true ↔
      Scalar.lt (distKey R t B) (distKey R t A) = true := by
  rw [comparator_same_class R t A B hflag hclass]

theorem farther_ranks_first_witness :
    exampleOpaqueFar.drawLast = exampleOpaque.drawLast ∧
    Scalar.eq exampleOpaqueFar.opacity Scalar.one = Scalar.eq exampleOpaque.opacity Scalar.one ∧
    distKey exampleQuarterTurn exampleTranslation exampleOpaqueFar = 25 ∧
    distKey exampleQuarterTurn exampleTranslation exampleOpaque = 5 ∧
    RenderPriorityComparator_ exampleQuarterTurn exampleTranslation
      exampleOpaqueFar exampleOpaque = true ∧
    ¬ (RenderPriorityComparator_ exampleQuarterTurn exampleTranslation
      exampleOpaque exampleOpaqueFar = true) := by
  have hA : distKey exampleQuarterTurn exampleTranslation exampleOpaqueFar = 25 := by
    rw [distKey_rat]; norm_num [exampleQuarterTurn, exampleTranslation, exampleOpaqueFar]
  have hB : distKey exampleQuarterTurn exampleTranslation exampleOpaque = 5 := by
    rw [distKey_rat]; norm_num [exampleQuarterTurn, exampleTranslation, exampleOpaque]
  refine ⟨rfl, rfl, hA, hB, ?_, ?_⟩
  · exact (farther_ranks_first exampleQuarterTurn exampleTranslation exampleOpaqueFar
      exampleOpaque rfl rfl).mpr (by rw [hA, hB, Scalar.lt_rat]; norm_num)
  · intro h
    have h2 := (farther_ranks_first exampleQuarterTurn exampleTranslation exampleOpaque
      exampleOpaqueFar rfl rfl).mp h
    rw [hA, hB, Scalar.lt_rat] at h2
    norm_num at h2

/-- In exact arithmetic, with equal flags and classes, the comparator places
`A` before `B` exactly when the key of `A` is the larger one. -/
theorem comparator_same_class_rat (R : Matrix3 ℚ) (t : Vector3 ℚ) (A B : Renderable ℚ)
    (hflag : A.drawLast = B.drawLast) (hclass : A.opacity = 1 ↔ B.opacity = 1) :
    RenderPriorityComparator_ R t A B = true ↔ distKey R t A > distKey R t B := by
  have hc : Scalar.eq A.opacity Scalar.one = Scalar.eq B.opacity Scalar.one := by
    simp only [Scalar.eq_rat, Scalar.one_rat]
    exact decide_eq_decide.mpr hclass
  rw [comparator_same_class R t A B hflag hc, Scalar.lt_rat]
  simp

/-- The compare of the spec is the lexicographic order of Mathlib on the
triples, read downwards. -/
theorem lexDescending_iff_lex (a b : Bool × Bool × ℚ) :
    lexDescending a b ↔
      (toLex (b.1, toLex (b.2.1, b.2.2)) : Bool ×ₗ (Bool ×ₗ ℚ))
        < toLex (a.1, toLex (a.2.1, a.2.2)) := by
  rw [Prod.Lex.lt_iff, Prod.Lex.lt_iff]
  simp only [lexDescending, eq_comm]

/-- No key ranks before itself. -/
theorem lexDescending_irrefl (a : Bool × Bool × ℚ) : ¬ lexDescending a a := by
  simp [lexDescending, Bool.lt_iff]

/-- The descending lexicographic compare is transitive. -/
theorem lexDescending_trans (a b c : Bool × Bool × ℚ)
    (hab : lexDescending a b) (hbc : lexDescending b c) : lexDescending a c := by
  obtain ⟨a1, a2, a3⟩ := a
  obtain ⟨b1, b2, b3⟩ := b
  obtain ⟨c1, c2, c3⟩ := c
  cases a1 <;> cases b1 <;> cases c1 <;> cases a2 <;> cases b2 <;> cases c2 <;>
    simp [lexDescending, Bool.lt_iff] at hab hbc ⊢ <;> exact lt_trans hbc hab

/-- Two keys are incomparable exactly when they are equal. -/
theorem lexDescending_incomparable_iff (a b : Bool × Bool × ℚ) :
    (¬ lexDescending a b ∧ ¬ lexDescending b a) ↔ a = b := by
  obtain ⟨a1, a2, a3⟩ := a
  obtain ⟨b1, b2, b3⟩ := b
  cases a1 <;> cases b1 <;> cases a2 <;> cases b2 <;>
    simp [lexDescending, Bool.lt_iff] <;>
    exact ⟨fun h => le_antisymm h.1 h.2, fun h => ⟨le_of_eq h, le_of_eq h.symm⟩⟩

/-- The comparator is the descending lexicographic compare of the spec keys. -/
theorem comparator_iff_lexDescending (R : Matrix3 ℚ) (t : Vector3 ℚ) (a b : Renderable ℚ) :
    RenderPriorityComparator_ R t a b = true ↔ lexDescending (specKey R t a) (specKey R t b) := by
  rw [RenderPriorityComparator_, tupleGt_iff_lexDescending, renderKey_eq_specKey,
    renderKey_eq_specKey]

/-- Two objects are incomparable exactly when their keys are equal. -/
theorem comparator_incomparable_iff (R : Matrix3 ℚ) (t : Vector3 ℚ) (a b : Renderable ℚ) :
    (RenderPriorityComparator_ R t a b = false ∧ RenderPriorityComparator_ R t b a = false) ↔
      specKey R t a = specKey R t b := by
  rw [← lexDescending_incomparable_iff, ← comparator_iff_lexDescending,
    ← comparator_iff_lexDescending]
  simp

/-- C4: for every fixed camera rotation and translation, "the comparator
returns true for (a, b)" is a strict weak ordering on objects with exact
distance keys: irreflexive, asymmetric, transitive, with a transitive
incomparability relation; and it equals the descending lexicographic
comparison of the triples (not draw-last, opacity == 1.0, squared
camera-space distance). -/
theorem comparator_strict_weak_ordering (R : Matrix3 ℚ) (t : Vector3 ℚ) :
    (∀ a : Renderable ℚ, RenderPriorityComparator_ R t a a = false) ∧
    (∀ a b : Renderable ℚ, RenderPriorityComparator_ R t a b = true →
      RenderPriorityComparator_ R t b a = false) ∧
    (∀ a b c : Renderable ℚ, RenderPriorityComparator_ R t a b = true →
      RenderPriorityComparator_ R t b c = true → RenderPriorityComparator_ R t a c = true) ∧
    (∀ a b c : Renderable ℚ,
      (RenderPriorityComparator_ R t a b = false ∧ RenderPriorityComparator_ R t b a = false) →
      (RenderPriorityComparator_ R t b c = false ∧ RenderPriorityComparator_ R t c b = false) →
      (RenderPriorityComparator_ R t a c = false ∧ RenderPriorityComparator_ R t c a = false)) ∧
    (∀ a b : Renderable ℚ, RenderPriorityComparator_ R t a b = true ↔
      lexDescending (specKey R t a) (specKey R t b)) := by
  refine ⟨?_, ?_, ?_, ?_, comparator_iff_lexDescending R t⟩
  · intro a
    have h := lexDescending_irrefl (specKey R t a)
    rw [← comparator_iff_lexDescending] at h
    simpa using h
  · intro a b hab
    by_contra hba
    rw [Bool.not_eq_false] at hba
    rw [comparator_iff_lexDescending] at hab hba
    exact lexDescending_irrefl _ (lexDescending_trans _ _ _ hab hba)
  · intro a b c hab hbc
    rw [comparator_iff_lexDescending] at hab hbc ⊢
    exact lexDescending_trans _ _ _ hab hbc
  · intro a b c hab hbc
    rw [comparator_incomparable_iff] at hab hbc ⊢
    exact hab.trans hbc

/-- Three elements that a comparator ranks `a`, `b`, `c`, never the reverse,
have one sorted arrangement only. -/
theorem sortedBy_three_unique {α : Type} (before : α → α → Bool) (a b c : α)
    (hab : before a b = true) (hba : before b a = false)
    (hbc : before b c = true) (hcb : before c b = false)
    (hac : before a c = true) (hca : before c a = false)
    (l : List α) (hp : l.Perm [a, b, c]) (hs : SortedBy before l) : l = [a, b, c] := by
  have hne_ab : a ≠ b := by
    intro h; subst h; rw [hab] at hba; cases hba
  have hne_bc : b ≠ c := by
    intro h; subst h; rw [hbc] at hcb; cases hcb
  have hne_ac : a ≠ c := by
    intro h; subst h; rw [hac] at hca; cases hca
  have hnd : l.Nodup := hp.nodup_iff.mpr (by simp [hne_ab, hne_bc, hne_ac])
  have hlen : l.length = 3 := by simpa using hp.length_eq
  match l, hlen with
  | [x, y, z], _ =>
    have hx : x ∈ [a, b, c] := hp.subset (by simp)
    have hy : y ∈ [a, b, c] := hp.subset (by simp)
    have hz : z ∈ [a, b, c] := hp.subset (by simp)
    simp only [List.mem_cons, List.mem_singleton, List.not_mem_nil, or_false] at hx hy hz
    simp only [SortedBy, List.pairwise_cons, List.mem_cons, List.mem_singleton,
      List.not_mem_nil, forall_eq_or_imp, forall_eq, or_false] at hs
    simp only [List.nodup_cons, List.mem_cons, List.mem_singleton, List.not_mem_nil,
      or_false, not_or] at hnd
    rcases hx with rfl | rfl | rfl <;> rcases hy with rfl | rfl | rfl <;>
      rcases hz with rfl | rfl | rfl <;> simp_all

/-- C5: for every camera transform and every choice of the three centroids,
the comparator ranks `O1` before `O2`, `O2` before `O3` and `O1` before `O3`
and never the reverse; `[O1, O2, O3]` is sorted, and it is the only
arrangement of the three objects that is sorted by the comparator. -/
theorem three_objects_order (R : Matrix3 ℚ) (t : Vector3 ℚ) (c1 c2 c3 : Vector3 ℚ) :
    (RenderPriorityComparator_ R t (O1 c1) (O2 c2) = true ∧
      RenderPriorityComparator_ R t (O2 c2) (O1 c1) = false) ∧
    (RenderPriorityComparator_ R t (O2 c2) (O3 c3) = true ∧
      RenderPriorityComparator_ R t (O3 c3) (O2 c2) = false) ∧
    (RenderPriorityComparator_ R t (O1 c1) (O3 c3) = true ∧
      RenderPriorityComparator_ R t (O3 c3) (O1 c1) = false) ∧
    SortedBy (RenderPriorityComparator_ R t) [O1 c1, O2 c2, O3 c3] ∧
    (∀ l : List (Renderable ℚ), l.Perm [O1 c1, O2 c2, O3 c3] →
      SortedBy (RenderPriorityComparator_ R t) l → l = [O1 c1, O2 c2, O3 c3]) := by
  have h12 : RenderPriorityComparator_ R t (O1 c1) (O2 c2) = true ∧
      RenderPriorityComparator_ R t (O2 c2) (O1 c1) = false := by
    simp only [RenderPriorityComparator_, tupleGt, tupleLt, renderKey, boolLt, O1, O2,
      Scalar.eq_rat, Scalar.one_rat]
    norm_num
  have h23 : RenderPriorityComparator_ R t (O2 c2) (O3 c3) = true ∧
      RenderPriorityComparator_ R t (O3 c3) (O2 c2) = false := by
    simp [RenderPriorityComparator_, tupleGt, tupleLt, renderKey, boolLt, O2, O3]
  have h13 : RenderPriorityComparator_ R t (O1 c1) (O3 c3) = true ∧
      RenderPriorityComparator_ R t (O3 c3) (O1 c1) = false := by
    simp [RenderPriorityComparator_, tupleGt, tupleLt, renderKey, boolLt, O1, O3]
  refine ⟨h12, h23, h13, ?_, ?_⟩
  · simp [SortedBy, h12.2, h23.2, h13.2]
  · intro l hp hs
    exact sortedBy_three_unique (RenderPriorityComparator_ R t) (O1 c1) (O2 c2) (O3 c3)
      h12.1 h12.2 h23.1 h23.2 h13.1 h13.2 l hp hs

/-- A left inverse of a 3x3 matrix is a right inverse: `Rᵀ R = I` gives
`R Rᵀ = I`. -/
theorem Matrix3.IsOrthogonal.mul_transpose (R : Matrix3 ℚ) (hR : R.IsOrthogonal) :
    R.mul R.transpose = Matrix3.identity := by
  simp only [Matrix3.IsOrthogonal, Matrix3.mul, Matrix3.transpose, Matrix3.identity,
    Matrix3.mk.injEq] at hR
  obtain ⟨e00, e01, e02, e10, e11, e12, e20, e21, e22⟩ := hR
  have hleft : (Matrix.of ![![R.m00, R.m01, R.m02], ![R.m10, R.m11, R.m12],
        ![R.m20, R.m21, R.m22]]).transpose *
      Matrix.of ![![R.m00, R.m01, R.m02], ![R.m10, R.m11, R.m12], ![R.m20, R.m21, R.m22]]
      = (1 : Matrix (Fin 3) (Fin 3) ℚ) := by
    ext i j
    fin_cases i <;> fin_cases j <;>
      simp [Matrix.mul_apply, Fin.sum_univ_three] <;> assumption
  have hright := Matrix.mul_eq_one_comm.mp hleft
  have f00 := congrFun (congrFun hright 0) 0
  have f01 := congrFun (congrFun hright 0) 1
  have f02 := congrFun (congrFun hright 0) 2
  have f10 := congrFun (congrFun hright 1) 0
  have f11 := congrFun (congrFun hright 1) 1
  have f12 := congrFun (congrFun hright 1) 2
  have f20 := congrFun (congrFun hright 2) 0
  have f21 := congrFun (congrFun hright 2) 1
  have f22 := congrFun (congrFun hright 2) 2
  simp [Matrix.mul_apply, Fin.sum_univ_three] at f00 f01 f02 f10 f11 f12 f20 f21 f22
  simp only [Matrix3.mul, Matrix3.transpose, Matrix3.identity, Matrix3.mk.injEq]
  exact ⟨f00, f01, f02, f10, f11, f12, f20, f21, f22⟩

/-- For an orthogonal `R` the distance key is the squared distance between
the centroid and the camera centre. -/
theorem distKey_eq_sqDist (R : Matrix3 ℚ) (t : Vector3 ℚ) (hR : R.IsOrthogonal)
    (o : Renderable ℚ) : distKey R t o = sqDist o.centroid (cameraCentre R t) := by
  have hRt := Matrix3.IsOrthogonal.mul_transpose R hR
  simp only [Matrix3.IsOrthogonal, Matrix3.mul, Matrix3.transpose, Matrix3.identity,
    Matrix3.mk.injEq] at hR hRt
  obtain ⟨e00, e01, e02, -, e11, e12, -, -, e22⟩ := hR
  obtain ⟨f00, f01, f02, -, f11, f12, -, -, f22⟩ := hRt
  rw [distKey_rat]
  simp only [sqDist, cameraCentre]
  linear_combination
    (o.centroid.x ^ 2) * e00 + (2 * o.centroid.x * o.centroid.y) * e01
    + (2 * o.centroid.x * o.centroid.z) * e02 + (o.centroid.y ^ 2) * e11
    + (2 * o.centroid.y * o.centroid.z) * e12 + (o.centroid.z ^ 2) * e22
    - (t.x ^ 2) * f00 - (2 * t.x * t.y) * f01 - (2 * t.x * t.z) * f02
    - (t.y ^ 2) * f11 - (2 * t.y * t.z) * f12 - (t.z ^ 2) * f22

/-- C10: for every orthogonal rotation `R`, every translation `t` and every
centroid, the distance key of the comparator equals, in exact arithmetic,
the squared Euclidean distance between the centroid and the camera centre
`-Rᵀ t`; hence, among objects with equal draw-last flag and equal opaque
class, the comparator ranks `A` before `B` exactly when the centroid of `A`
is strictly farther from the camera centre than the centroid of `B` (stated
for the squared distances and for the distances themselves). -/
theorem distance_key_is_camera_distance (R : Matrix3 ℚ) (t : Vector3 ℚ)
    (hR : R.IsOrthogonal) :
    (∀ o : Renderable ℚ, distKey R t o = sqDist o.centroid (cameraCentre R t)) ∧
    (∀ A B : Renderable ℚ, A.drawLast = B.drawLast → (A.opacity = 1 ↔ B.opacity = 1) →
      (RenderPriorityComparator_ R t A B = true ↔
        sqDist B.centroid (cameraCentre R t) < sqDist A.centroid (cameraCentre R t))) ∧
    (∀ A B : Renderable ℚ, A.drawLast = B.drawLast → (A.opacity = 1 ↔ B.opacity = 1) →
      (RenderPriorityComparator_ R t A B = true ↔
        Real.sqrt ((sqDist B.centroid (cameraCentre R t) : ℚ) : ℝ)
          < Real.sqrt ((sqDist A.centroid (cameraCentre R t) : ℚ) : ℝ))) := by
  have hsq : ∀ A B : Renderable ℚ, A.drawLast = B.drawLast →
      (A.opacity = 1 ↔ B.opacity = 1) →
      (RenderPriorityComparator_ R t A B = true ↔
        sqDist B.centroid (cameraCentre R t) < sqDist A.centroid (cameraCentre R t)) := by
    intro A B hflag hclass
    have hc : Scalar.eq A.opacity Scalar.one = Scalar.eq B.opacity Scalar.one := by
      simp only [Scalar.eq_rat, Scalar.one_rat]
      exact decide_eq_decide.mpr hclass
    rw [comparator_same_class R t A B hflag hc, Scalar.lt_rat, distKey_eq_sqDist R t hR,
      distKey_eq_sqDist R t hR]
    simp
  refine ⟨distKey_eq_sqDist R t hR, hsq, ?_⟩
  intro A B hflag hclass
  have hnonneg : (0 : ℝ) ≤ ((sqDist B.centroid (cameraCentre R t) : ℚ) : ℝ) := by
    have h : (0 : ℚ) ≤ sqDist B.centroid (cameraCentre R t) := by
      unfold sqDist
      positivity
    exact_mod_cast h
  rw [Real.sqrt_lt_sqrt_iff hnonneg, Rat.cast_lt]
  exact hsq A B hflag hclass

theorem distance_key_is_camera_distance_witness :
    exampleQuarterTurn.IsOrthogonal ∧
    distKey exampleQuarterTurn exampleTranslation exampleTranslucent
      = sqDist exampleTranslucent.centroid (cameraCentre exampleQuarterTurn exampleTranslation) :=
  ⟨by norm_num [Matrix3.IsOrthogonal, Matrix3.mul, Matrix3.transpose, Matrix3.identity,
      exampleQuarterTurn],
    (distance_key_is_camera_distance exampleQuarterTurn exampleTranslation
      (by norm_num [Matrix3.IsOrthogonal, Matrix3.mul, Matrix3.transpose, Matrix3.identity,
        exampleQuarterTurn])).1 exampleTranslucent⟩

/-! ## Part 2, theorems: the registry -/

/-- A name that is not a key is not found. -/
theorem mapFind_eq_none {V : Type} (m : List (String × V)) (name : String)
    (h : name ∉ mapKeys m) : mapFind m name = none := by
  induction m with
  | nil => rfl
  | cons e rest ih =>
    simp only [mapKeys, List.map_cons, List.mem_cons, not_or] at h
    have hne : ¬ e.1 = name := fun heq => h.1 heq.symm
    simp only [mapFind, hne, if_false]
    exact ih h.2

/-- A found entry is an entry of the map and carries the requested key. -/
theorem mapFind_some {V : Type} (m : List (String × V)) (name : String) (e : String × V)
    (h : mapFind m name = some e) : e ∈ m ∧ e.1 = name := by
  induction m with
  | nil => simp [mapFind] at h
  | cons e' rest ih =>
    simp only [mapFind] at h
    by_cases heq : e'.1 = name
    · simp only [heq, if_true, Option.some.injEq] at h
      subst h
      exact ⟨List.mem_cons_self _ _, heq⟩
    · simp only [heq, if_false] at h
      exact ⟨List.mem_cons_of_mem _ (ih h).1, (ih h).2⟩

/-- In an ordered map every entry is the one found under its key. -/
theorem mapFind_of_mem {V : Type} (m : List (String × V)) (hm : mapOrdered m)
    (e : String × V) (he : e ∈ m) : mapFind m e.1 = some e := by
  induction m with
  | nil => cases he
  | cons e' rest ih =>
    simp only [mapOrdered, List.pairwise_cons] at hm
    rcases List.mem_cons.mp he with rfl | hrest
    · simp [mapFind]
    · have hlt : e'.1 < e.1 := hm.1 e hrest
      have hne : ¬ e'.1 = e.1 := ne_of_lt hlt
      simp only [mapFind, hne, if_false]
      exact ih hm.2 hrest

/-- After `m[name] = value` the entry under `name` is `value`. -/
theorem mapFind_mapAssign_self {V : Type} (m : List (String × V)) (name : String) (value : V) :
    mapFind (mapAssign m name value) name = some (name, value) := by
  induction m with
  | nil => simp [mapAssign, mapFind]
  | cons e rest ih =>
    simp only [mapAssign]
    by_cases h1 : name = e.1
    · simp [h1, mapFind]
    · by_cases h2 : name < e.1
      · simp [h1, h2, mapFind]
      · have h3 : ¬ e.1 = name := fun h => h1 h.symm
        simp [h1, h2, mapFind, h3, ih]

/-- The assignment `m[name] = value` does not change what is found under
another key. -/
theorem mapFind_mapAssign_ne {V : Type} (m : List (String × V)) (name other : String)
    (value : V) (h : name ≠ other) :
    mapFind (mapAssign m name value) other = mapFind m other := by
  induction m with
  | nil => simp [mapAssign, mapFind, h]
  | cons e rest ih =>
    simp only [mapAssign]
    by_cases h1 : name = e.1
    · have h3 : ¬ e.1 = other := fun h' => h (h1.trans h')
      simp [h1, mapFind, h3]
    · by_cases h2 : name < e.1
      · simp [h1, h2, mapFind, h]
      · simp only [h1, h2, if_false, mapFind, ih]

/-- The keys after `m[name] = value` are the old keys and `name`. -/
theorem mem_mapKeys_mapAssign {V : Type} (m : List (String × V)) (name k : String)
    (value : V) : k ∈ mapKeys (mapAssign m name value) ↔ k = name ∨ k ∈ mapKeys m := by
  induction m with
  | nil => simp [mapAssign, mapKeys]
  | cons e rest ih =>
    simp only [mapAssign]
    by_cases h1 : name = e.1
    · simp only [h1, if_true, mapKeys, List.map_cons, List.mem_cons]
      tauto
    · by_cases h2 : name < e.1
      · simp only [h1, h2, if_true, if_false, mapKeys, List.map_cons, List.mem_cons]
      · simp only [mapKeys] at ih
        simp only [h1, h2, if_false, mapKeys, List.map_cons, List.mem_cons, ih]
        tauto

/-- The assignment `m[name] = value` keeps the map ordered. -/
theorem mapOrdered_mapAssign {V : Type} (m : List (String × V)) (hm : mapOrdered m)
    (name : String) (value : V) : mapOrdered (mapAssign m name value) := by
  induction m with
  | nil => simp [mapAssign, mapOrdered]
  | cons e rest ih =>
    simp only [mapOrdered, List.pairwise_cons] at hm
    simp only [mapAssign]
    by_cases h1 : name = e.1
    · simp only [h1, if_true, mapOrdered, List.pairwise_cons]
      exact ⟨hm.1, hm.2⟩
    · by_cases h2 : name < e.1
      · simp only [h1, h2, if_true, if_false, mapOrdered, List.pairwise_cons, List.mem_cons]
        refine ⟨?_, hm.1, hm.2⟩
        intro a ha
        rcases ha with rfl | ha
        · exact h2
        · exact lt_trans h2 (hm.1 a ha)
      · have hlt : e.1 < name := lt_of_le_of_ne (not_lt.mp h2) (fun h => h1 h.symm)
        simp only [h1, h2, if_false, mapOrdered, List.pairwise_cons]
        refine ⟨?_, ih hm.2⟩
        intro a ha
        have hk : a.1 ∈ mapKeys (mapAssign rest name value) := List.mem_map_of_mem _ ha
        rcases (mem_mapKeys_mapAssign rest name a.1 value).mp hk with hk | hk
        · rw [hk]; exact hlt
        · obtain ⟨a', ha', hfst⟩ := List.mem_map.mp hk
          rw [← hfst]
          exact hm.1 a' ha'

/-- In an ordered map exactly one entry carries a key that is present. -/
theorem mapOrdered_count {V : Type} (m : List (String × V)) (hm : mapOrdered m)
    (e : String × V) (he : e ∈ m) :
    (m.filter (fun x => decide (x.1 = e.1))).length = 1 ∧
      ∀ x ∈ m, x.1 = e.1 → x = e := by
  induction m with
  | nil => cases he
  | cons e' rest ih =>
    simp only [mapOrdered, List.pairwise_cons] at hm
    rcases List.mem_cons.mp he with rfl | hrest
    · have hnone : ∀ x ∈ rest, ¬ x.1 = e.1 := fun x hx => (ne_of_lt (hm.1 x hx)).symm
      constructor
      · have hfil : rest.filter (fun x => decide (x.1 = e.1)) = [] := by
          rw [List.filter_eq_nil_iff]
          intro x hx
          simpa using hnone x hx
        simp [List.filter_cons, hfil]
      · intro x hx hxe
        rcases List.mem_cons.mp hx with rfl | hx
        · rfl
        · exact absurd hxe (hnone x hx)
    · have hne : ¬ e'.1 = e.1 := ne_of_lt (hm.1 e hrest)
      obtain ⟨ih1, ih2⟩ := ih hm.2 hrest
      constructor
      · simp [List.filter_cons, hne, ih1]
      · intro x hx hxe
        rcases List.mem_cons.mp hx with rfl | hx
        · exact absurd hxe hne
        · exact ih2 x hx hxe

/-- What `addObject` does with an object that exists. -/
theorem addObject_some {K : Type} (v : Visualizer K) (T : K) (name : String)
    (obj : ObjectRef K) :
    addObject v T name (some obj) =
      some { renderables_ :=
               mapAssign v.renderables_ name (some obj, some { id := v.created, kind := T })
             contextCurrent := true
             created := v.created + 1 } := rfl

/-- A call of `addObject` that returns keeps the registry ordered. -/
theorem addObject_ordered {K : Type} (v v' : Visualizer K) (T : K) (name : String)
    (obj : SharedPtr K) (hv : mapOrdered v.renderables_) (h : addObject v T name obj = some v') :
    mapOrdered v'.renderables_ := by
  cases obj with
  | none => simp [addObject] at h
  | some r =>
    rw [addObject_some, Option.some.injEq] at h
    subst h
    exact mapOrdered_mapAssign v.renderables_ hv name _

/-- The second overload is the first one applied to the object it creates. -/
theorem addObjectNew_eq {K : Type} (v : Visualizer K) (T : K) (name : String) (fresh : Nat) :
    addObjectNew v T name fresh =
      some { renderables_ := mapAssign v.renderables_ name
               (some { id := fresh, kind := T }, some { id := v.created, kind := T })
             contextCurrent := true
             created := v.created + 1 } := rfl

/-- Either overload stores the pair of the call's object and the bundle it
creates under the name. -/
theorem AddCall.run_eq {K : Type} (v : Visualizer K) (name : String) (c : AddCall K) :
    c.run v name =
      some { renderables_ := mapAssign v.renderables_ name
               (some c.object, some { id := v.created, kind := c.kind })
             contextCurrent := true
             created := v.created + 1 } := by
  cases c <;> rfl

/-- An entry after `m[name] = value` is the new pair or an old entry. -/
theorem mem_mapAssign {V : Type} (m : List (String × V)) (name : String) (value : V)
    (e : String × V) (he : e ∈ mapAssign m name value) : e = (name, value) ∨ e ∈ m := by
  induction m with
  | nil =>
    simp only [mapAssign, List.mem_singleton] at he
    exact Or.inl he
  | cons e' rest ih =>
    simp only [mapAssign] at he
    by_cases h1 : name = e'.1
    · simp only [h1, if_true, List.mem_cons] at he
      rcases he with he | he
      · exact Or.inl (by rw [he, h1])
      · exact Or.inr (List.mem_cons_of_mem _ he)
    · by_cases h2 : name < e'.1
      · simp only [h1, h2, if_true, if_false, List.mem_cons] at he
        rcases he with he | he | he
        · exact Or.inl he
        · exact Or.inr (by rw [he]; exact List.mem_cons_self _ _)
        · exact Or.inr (List.mem_cons_of_mem _ he)
      · simp only [h1, h2, if_false, List.mem_cons] at he
        rcases he with he | he
        · exact Or.inr (by rw [he]; exact List.mem_cons_self _ _)
        · rcases ih he with h | h
          · exact Or.inl h
          · exact Or.inr (List.mem_cons_of_mem _ h)

/-- A call keeps the allocation invariant: the bundle it creates takes the
counter's value and the counter moves on. -/
theorem AddCall.run_buffersFresh {K : Type} (v v' : Visualizer K) (name : String)
    (c : AddCall K) (hv : buffersFresh v) (h : c.run v name = some v') : buffersFresh v' := by
  rw [AddCall.run_eq, Option.some.injEq] at h
  subst h
  intro e he b hb
  rcases mem_mapAssign _ _ _ _ he with heq | hold
  · subst heq
    simp only [Option.mem_def, Option.some.injEq] at hb
    subst hb
    exact Nat.lt_succ_self _
  · exact Nat.lt_succ_of_lt (hv e hold b hb)

/-- A state with an empty registry, as a newly constructed `std::map` is,
satisfies both invariants; the calls keep them. -/
theorem invariants_of_empty {K : Type} (v : Visualizer K) (h : v.renderables_ = []) :
    mapOrdered v.renderables_ ∧ buffersFresh v := by
  constructor
  · rw [h]; exact List.Pairwise.nil
  · intro e he
    rw [h] at he
    cases he

/-- A sequence of calls runs its first part, then the rest. -/
theorem addObjects_append {K : Type} (name : String) (l1 l2 : List (AddCall K))
    (v : Visualizer K) :
    addObjects v name (l1 ++ l2) = (addObjects v name l1).bind (fun v1 => addObjects v1 name l2) := by
  induction l1 generalizing v with
  | nil => rfl
  | cons c rest ih =>
    simp only [List.cons_append, addObjects]
    cases c.run v name with
    | none => rfl
    | some v' => exact ih v'

/-- A sequence of calls runs to the end, keeps the registry ordered, keeps
the allocation invariant and creates one buffer bundle per call. -/
theorem addObjects_succeeds {K : Type} (name : String) (calls : List (AddCall K))
    (v : Visualizer K) (hv : mapOrdered v.renderables_) (hf : buffersFresh v) :
    ∃ v1, addObjects v name calls = some v1 ∧
      mapOrdered v1.renderables_ ∧ buffersFresh v1 ∧ v1.created = v.created + calls.length := by
  induction calls generalizing v with
  | nil => exact ⟨v, rfl, hv, hf, rfl⟩
  | cons c rest ih =>
    have hrun := AddCall.run_eq v name c
    have hstep := mapOrdered_mapAssign v.renderables_ hv name
      (some c.object, some { id := v.created, kind := c.kind })
    have hfstep := AddCall.run_buffersFresh v _ name c hf hrun
    obtain ⟨v1, h1, h2, h3, h4⟩ := ih _ hstep hfstep
    refine ⟨v1, ?_, h2, h3, ?_⟩
    · simp only [addObjects, hrun]
      exact h1
    · rw [h4, List.length_cons]
      simp only
      omega

/-- C6: for every registry state and every name that is not a key of the
registry, `getObject` returns the empty pointer for every requested variant
and returns the state it was given: the registry is unchanged and has no
entry for the name. The function is total, it has no failing path. -/
theorem getObject_unknown {K : Type} (isA : K → K → Bool) (v : Visualizer K) (V : Variant K)
    (name : String) (h : name ∉ mapKeys v.renderables_) :
    getObject isA v V name = (none, v) ∧
      name ∉ mapKeys (getObject isA v V name).2.renderables_ := by
  have hres : getObject isA v V name = (none, v) := by
    simp only [getObject, mapFind_eq_none v.renderables_ name h]
  rw [hres]
  exact ⟨rfl, h⟩

theorem getObject_unknown_witness :
    "mesh" ∉ mapKeys exampleVisualizer.renderables_ ∧
    getObject exampleIsA exampleVisualizer (Variant.derived "PointCloud") "mesh"
      = (none, exampleVisualizer) :=
  ⟨by decide,
    (getObject_unknown exampleIsA exampleVisualizer (Variant.derived "PointCloud") "mesh"
      (by decide)).1⟩

/-- C7: for every registry state and every registered name with stored
renderable `r`, `getObject` returns `r` for the default variant `Renderable`
and for every variant that the class of `r` supports, and returns the empty
pointer for a variant that the class of `r` does not support; the state is
unchanged in each case. -/
theorem getObject_registered {K : Type} (isA : K → K → Bool) (v : Visualizer K)
    (hv : mapOrdered v.renderables_) (name : String) (r : ObjectRef K) (b : SharedPtr K)
    (hmem : (name, (some r, b)) ∈ v.renderables_) :
    getObject isA v Variant.base name = (some r, v) ∧
    (∀ k, isA r.kind k = true → getObject isA v (Variant.derived k) name = (some r, v)) ∧
    (∀ k, isA r.kind k = false → getObject isA v (Variant.derived k) name = (none, v)) := by
  have hfind : mapFind v.renderables_ name = some (name, (some r, b)) :=
    mapFind_of_mem v.renderables_ hv (name, (some r, b)) hmem
  refine ⟨?_, ?_, ?_⟩
  · simp only [getObject, hfind, dynamic_pointer_cast]
  · intro k hk
    simp only [getObject, hfind, dynamic_pointer_cast, hk, if_true]
  · intro k hk
    simp [getObject, hfind, dynamic_pointer_cast, hk]

theorem getObject_registered_witness :
    mapOrdered exampleVisualizer.renderables_ ∧
    getObject exampleIsA exampleVisualizer Variant.base "cloud"
      = (some { id := 11, kind := "PointCloud" }, exampleVisualizer) :=
  ⟨by simp [mapOrdered, exampleVisualizer]; decide,
    (getObject_registered exampleIsA exampleVisualizer
      (by simp [mapOrdered, exampleVisualizer]; decide) "cloud"
      { id := 11, kind := "PointCloud" } (some { id := 1, kind := "PointCloud" })
      (by simp [exampleVisualizer])).1⟩

/-- C8: for every registry state (ordered, with the allocation invariant),
every name and every non-empty sequence of `addObject` calls of either
overload with that name, the sequence runs to the end and afterwards: the
registry holds exactly one entry for the name; `getObject` returns the object
of the last call; every entry under the name is the pair of that object with
the buffer bundle that the last call created, whose identity `v1.created` is
the counter of the state `v1` reached before the last call; and that bundle
is new: no registry state before the last call (the initial one, and the one
after each earlier call) holds a bundle with this identity under any name. -/
theorem addObject_last_write_wins {K : Type} (isA : K → K → Bool) (v : Visualizer K)
    (hv : mapOrdered v.renderables_) (hf : buffersFresh v) (name : String)
    (calls : List (AddCall K)) (hne : calls ≠ []) :
    ∃ v1 v',
      addObjects v name calls.dropLast = some v1 ∧
      (calls.getLast hne).run v1 name = some v' ∧
      addObjects v name calls = some v' ∧
      (v'.renderables_.filter (fun e => decide (e.1 = name))).length = 1 ∧
      getObject isA v' Variant.base name = (some (calls.getLast hne).object, v') ∧
      (∀ e ∈ v'.renderables_, e.1 = name →
        e = (name, (some (calls.getLast hne).object,
          some { id := v1.created, kind := (calls.getLast hne).kind }))) ∧
      v1.created = v.created + calls.dropLast.length ∧
      (∀ (pre suf : List (AddCall K)) (vi : Visualizer K), calls = pre ++ suf → suf ≠ [] →
        addObjects v name pre = some vi →
        ∀ e ∈ vi.renderables_, ∀ b ∈ e.2.2, b.id ≠ v1.created) := by
  obtain ⟨v1, h1, hord1, -, hcr1⟩ := addObjects_succeeds name calls.dropLast v hv hf
  have hsplit : calls = calls.dropLast ++ [calls.getLast hne] :=
    (List.dropLast_append_getLast hne).symm
  have hrun := AddCall.run_eq v1 name (calls.getLast hne)
  have hfind := mapFind_mapAssign_self v1.renderables_ name
    (some (calls.getLast hne).object,
      some { id := v1.created, kind := (calls.getLast hne).kind })
  have hord := mapOrdered_mapAssign v1.renderables_ hord1 name
    (some (calls.getLast hne).object,
      some { id := v1.created, kind := (calls.getLast hne).kind })
  have hmem := (mapFind_some _ _ _ hfind).1
  have hcount := mapOrdered_count _ hord _ hmem
  refine ⟨v1, _, h1, hrun, ?_, hcount.1, ?_, hcount.2, hcr1, ?_⟩
  · conv_lhs => rw [hsplit]
    rw [addObjects_append, h1]
    show addObjects v1 name [calls.getLast hne] = _
    simp only [addObjects, hrun]
  · simp only [getObject, hfind, dynamic_pointer_cast]
  · intro pre suf vi hcalls hsuf hpre e he b hb
    obtain ⟨vi', hvi, -, hfi, hci⟩ := addObjects_succeeds name pre v hv hf
    rw [hpre, Option.some.injEq] at hvi
    subst hvi
    have hlt : b.id < vi.created := hfi e he b hb
    have hlen : pre.length + 1 ≤ calls.length := by
      have hpos : 0 < suf.length := List.length_pos.mpr hsuf
      rw [hcalls, List.length_append]
      omega
    have hdrop : calls.dropLast.length = calls.length - 1 := List.length_dropLast calls
    omega

theorem addObject_last_write_wins_witness :
    mapOrdered exampleVisualizer.renderables_ ∧ buffersFresh exampleVisualizer ∧
    ∃ v1 v',
      addObjects exampleVisualizer "cloud" exampleCalls.dropLast = some v1 ∧
      (exampleCalls.getLast (by decide)).run v1 "cloud" = some v' ∧
      addObjects exampleVisualizer "cloud" exampleCalls = some v' ∧
      (v'.renderables_.filter (fun e => decide (e.1 = "cloud"))).length = 1 ∧
      getObject exampleIsA v' Variant.base "cloud"
        = (some (exampleCalls.getLast (by decide)).object, v') ∧
      (∀ e ∈ v'.renderables_, e.1 = "cloud" →
        e = ("cloud", (some (exampleCalls.getLast (by decide)).object,
          some { id := v1.created, kind := (exampleCalls.getLast (by decide)).kind }))) ∧
      v1.created = exampleVisualizer.created + exampleCalls.dropLast.length ∧
      (∀ (pre suf : List (AddCall String)) (vi : Visualizer String),
        exampleCalls = pre ++ suf → suf ≠ [] →
        addObjects exampleVisualizer "cloud" pre = some vi →
        ∀ e ∈ vi.renderables_, ∀ b ∈ e.2.2, b.id ≠ v1.created) :=
  ⟨by simp [mapOrdered, exampleVisualizer]; decide, by decide,
    addObject_last_write_wins exampleIsA exampleVisualizer
      (by simp [mapOrdered, exampleVisualizer]; decide) (by decide) "cloud"
      exampleCalls (by decide)⟩

/-- A concrete run of the sequence of the example: three calls of both
overloads under `"cloud"` leave the object of the last call, a constructed
one, with the fifth bundle. -/
theorem addObjects_example :
    addObjects exampleVisualizer "cloud" exampleCalls =
      some { renderables_ :=
               [("axes", (some { id := 10, kind := "CoordinateFrame" },
                          some { id := 0, kind := "CoordinateFrame" })),
                ("cloud", (some { id := 22, kind := "PointCloud" },
                           some { id := 4, kind := "PointCloud" }))]
             contextCurrent := true
             created := 5 } := by
  have h1 : ¬ ("cloud" : String) < "axes" := by simp; decide
  simp [addObjects, AddCall.run, addObject, addObjectNew, exampleCalls, exampleVisualizer,
    mapAssign, h1]

/-- C9: for every registry state and every pair of distinct names `n` and
`m`, `addObject(n, obj)` leaves the entry under `m` unchanged: `getObject(m)`
returns the same result before and after for every variant, `m` is
registered after the call if and only if it was before, and the registered
names after the call are the previous names and `n`. -/
theorem addObject_frame {K : Type} (isA : K → K → Bool) (v : Visualizer K) (n m : String)
    (hnm : n ≠ m) (T : K) (obj : ObjectRef K) :
    ∃ v', addObject v T n (some obj) = some v' ∧
      mapFind v'.renderables_ m = mapFind v.renderables_ m ∧
      (∀ V, (getObject isA v' V m).1 = (getObject isA v V m).1) ∧
      (m ∈ mapKeys v'.renderables_ ↔ m ∈ mapKeys v.renderables_) ∧
      (∀ k, k ∈ mapKeys v'.renderables_ ↔ k = n ∨ k ∈ mapKeys v.renderables_) := by
  have hfind := mapFind_mapAssign_ne v.renderables_ n m
    (some obj, some { id := v.created, kind := T }) hnm
  refine ⟨_, addObject_some v T n obj, hfind, ?_, ?_, ?_⟩
  · intro V
    simp only [getObject, hfind]
    cases mapFind v.renderables_ m <;> rfl
  · rw [mem_mapKeys_mapAssign]
    constructor
    · rintro (h | h)
      · exact absurd h.symm hnm
      · exact h
    · exact Or.inr
  · intro k
    exact mem_mapKeys_mapAssign v.renderables_ n k _

theorem addObject_frame_witness :
    "mesh" ≠ "cloud" ∧
    ∃ v', addObject exampleVisualizer "Mesh" "mesh" (some { id := 20, kind := "Mesh" })
        = some v' ∧
      mapFind v'.renderables_ "cloud" = mapFind exampleVisualizer.renderables_ "cloud" ∧
      (∀ V, (getObject exampleIsA v' V "cloud").1
        = (getObject exampleIsA exampleVisualizer V "cloud").1) ∧
      ("cloud" ∈ mapKeys v'.renderables_ ↔ "cloud" ∈ mapKeys exampleVisualizer.renderables_) ∧
      (∀ k, k ∈ mapKeys v'.renderables_ ↔
        k = "mesh" ∨ k ∈ mapKeys exampleVisualizer.renderables_) :=
  ⟨by decide,
    addObject_frame exampleIsA exampleVisualizer "mesh" "cloud" (by decide) "Mesh"
      { id := 20, kind := "Mesh" }⟩

/-- A concrete run: adding `"bunny"` places the new entry between `"axes"`
and `"cloud"`, with the next buffer bundle. -/
theorem addObject_example :
    addObject exampleVisualizer "Mesh" "bunny" (some { id := 20, kind := "Mesh" }) =
      some { renderables_ :=
               [("axes", (some { id := 10, kind := "CoordinateFrame" },
                          some { id := 0, kind := "CoordinateFrame" })),
                ("bunny", (some { id := 20, kind := "Mesh" }, some { id := 2, kind := "Mesh" })),
                ("cloud", (some { id := 11, kind := "PointCloud" },
                           some { id := 1, kind := "PointCloud" }))]
             contextCurrent := true
             created := 3 } := by
  have h1 : ¬ ("bunny" : String) < "axes" := by simp; decide
  have h2 : ("bunny" : String) < "cloud" := by simp; decide
  simp [addObject, exampleVisualizer, mapAssign, h1, h2]

/-- A concrete run: re-adding `"cloud"` replaces its entry in place. -/
theorem addObject_replace_example :
    addObject exampleVisualizer "Mesh" "cloud" (some { id := 20, kind := "Mesh" }) =
      some { renderables_ :=
               [("axes", (some { id := 10, kind := "CoordinateFrame" },
                          some { id := 0, kind := "CoordinateFrame" })),
                ("cloud", (some { id := 20, kind := "Mesh" }, some { id := 2, kind := "Mesh" }))]
             contextCurrent := true
             created := 3 } := by
  have h1 : ¬ ("cloud" : String) < "axes" := by simp; decide
  simp [addObject, exampleVisualizer, mapAssign, h1]

/-- A concrete run: a null object makes `addObject` fail. -/
theorem addObject_null_example :
    addObject exampleVisualizer "Mesh" "cloud" none = none := rfl

/-- A concrete run: a registered object asked for as another class. -/
theorem getObject_mismatch_example :
    getObject exampleIsA exampleVisualizer (Variant.derived "Mesh") "cloud"
      = (none, exampleVisualizer) := by
  decide

/-- A concrete run of the comparator: equal flags and classes, the farther
centroid first. -/
theorem comparator_example :
    RenderPriorityComparator_ exampleRotation exampleTranslation exampleDrawLast exampleOpaque
        = false ∧
    RenderPriorityComparator_ exampleRotation exampleTranslation exampleOpaque exampleTranslucent
        = true ∧
    RenderPriorityComparator_ exampleRotation exampleTranslation exampleOpaque exampleOpaqueTwin
        = false := by
  refine ⟨?_, ?_, ?_⟩ <;>
    simp [RenderPriorityComparator_, tupleGt, tupleLt, renderKey, boolLt, distKey,
      Vector3.squaredNorm, Vector3.add, Matrix3.mulVec, Scalar.add_rat, Scalar.mul_rat,
      Scalar.eq_rat, Scalar.one_rat, Scalar.lt_rat, exampleRotation, exampleTranslation,
      exampleDrawLast, exampleOpaque, exampleTranslucent, exampleOpaqueTwin]

end cilantro
